import Mathlib

/-!
Shallow embedding of src/db.py (a Clash Royale ladder crawler that stores
players, decks and battles in an sqlite database).

Modelling decisions, each tied to the source:
  - The sqlite database is a record of three tables, each a list of rows in
    insertion order.  AUTOINCREMENT ids are modelled as (number of rows) + 1,
    which coincides with sqlite because the program only ever inserts.
  - Timestamps written by in_player (str(datetime.now(utc))) and the value
    of datetime(now, +N seconds) used by out_player are modelled as Nat;
    the string comparison in the SQL is order-preserving on these values.
  - battleTime strings are reformatted by strptime/str in in_battle; the
    function battleTimeKey below performs the same reformatting on the
    character level, so equal inputs give equal stored keys exactly as in
    the source.
  - SELECT ... ORDER BY update_time with sqlite semantics sorts NULLs first;
    this is the relation playerOrder below.  fetchone() is head?.
-/

namespace CrDb

/-- A card object from the API; in_deck only reads its id field. -/
structure Card where
  id : Nat
  deriving DecidableEq

/-- One participant of a battle (battle.team.0 or battle.opponent.0 in the
source; the code only ever indexes element 0 of those lists). -/
structure Side where
  tag : String
  startingTrophies : Nat
  crowns : Nat
  cards : List Card
  deriving DecidableEq

/-- A raw battle record from the battlelog endpoint, with the fields the
program reads. -/
structure Battle where
  battleTime : String
  gameModeId : Nat
  team : Side
  opponent : Side
  deriving DecidableEq

/-- A row of the players table: (update_time TEXT, tag TEXT PRIMARY KEY). -/
structure PlayerRow where
  update_time : Option Nat
  tag : String
  deriving DecidableEq

/-- A row of the decks table; the eight card columns are kept as a list. -/
structure DeckRow where
  deck_id : Nat
  cards : List Nat
  deriving DecidableEq

/-- A row of the battles table. -/
structure BattleRow where
  battle_id : Nat
  battle_time : String
  tag_1 : String
  trophies_1 : Nat
  crowns_1 : Nat
  deck_1 : Nat
  tag_2 : String
  trophies_2 : Nat
  crowns_2 : Nat
  deck_2 : Nat
  deriving DecidableEq

/-- The whole database. -/
structure DB where
  players : List PlayerRow
  decks : List DeckRow
  battles : List BattleRow
  deriving DecidableEq

/-- The freshly created database of create_db. -/
def emptyDB : DB := ⟨[], [], []⟩

/-- sqlite comparison order on the update_time column under
ORDER BY update_time: NULL sorts before every value. -/
def nullsFirstLe (a b : Option Nat) : Prop :=
  match a, b with
  | none, _ => True
  | some _, none => False
  | some x, some y => x ≤ y

instance : DecidableRel nullsFirstLe := fun a b =>
  match a, b with
  | none, _ => isTrue trivial
  | some _, none => isFalse (fun h => h)
  | some x, some y => Nat.decLe x y

theorem nullsFirstLe_refl (a : Option Nat) : nullsFirstLe a a := by
  cases a with
  | none => trivial
  | some x => exact Nat.le_refl x

/-- Row order used by ORDER BY update_time. -/
def playerOrder (p q : PlayerRow) : Prop :=
  nullsFirstLe p.update_time q.update_time

instance : DecidableRel playerOrder := fun p q =>
  inferInstanceAs (Decidable (nullsFirstLe p.update_time q.update_time))

instance : IsTotal PlayerRow playerOrder where
  total p q := by
    unfold playerOrder
    cases p.update_time with
    | none => exact Or.inl trivial
    | some x =>
      cases q.update_time with
      | none => exact Or.inr trivial
      | some y => exact Nat.le_total x y

instance : IsTrans PlayerRow playerOrder where
  trans p q s hpq hqs := by
    unfold playerOrder at hpq hqs ⊢
    cases hp : p.update_time with
    | none => trivial
    | some x =>
      rw [hp] at hpq
      cases hq : q.update_time with
      | none => rw [hq] at hpq; exact absurd hpq (fun h => h)
      | some y =>
        rw [hq] at hpq hqs
        cases hs : s.update_time with
        | none => rw [hs] at hqs; exact absurd hqs (fun h => h)
        | some z => rw [hs] at hqs; exact Nat.le_trans hpq hqs

/-- The WHERE clause of out_player, exactly as in the source:
update_time < datetime(now, +outdated seconds) OR update_time is NULL.
Note the sign: the code adds the outdated parameter to the current time. -/
def isEligible (outdated now : Nat) (p : PlayerRow) : Bool :=
  match p.update_time with
  | none => true
  | some t => decide (t < now + outdated)

/-- out_player(outdated=3600): SELECT tag FROM players WHERE (...)
ORDER BY update_time, then fetchone. -/
def out_player (outdated now : Nat) (db : DB) : Option String :=
  (List.insertionSort playerOrder (db.players.filter (isEligible outdated now))).head?.map
    (fun p => p.tag)

/-- in_player(player, update_time=None): INSERT OR IGNORE the row
(update_time, player); then, when update_time is not None, UPDATE the
update_time of every row whose tag equals player. -/
def in_player (player : String) (update_time : Option Nat) (db : DB) : DB :=
  let inserted :=
    if db.players.any (fun p => decide (p.tag = player)) then db.players
    else db.players ++ [⟨update_time, player⟩]
  match update_time with
  | none => { db with players := inserted }
  | some t =>
      { db with players :=
          inserted.map (fun p => if p.tag = player then ⟨some t, p.tag⟩ else p) }

/-- sorted([card.id for card in deck]) of in_deck. -/
def sortedCards (deck : List Card) : List Nat :=
  List.insertionSort (fun a b => a ≤ b) (deck.map (fun c => c.id))

/-- in_deck(deck): look the sorted card list up in decks; when absent,
INSERT it and return lastrowid, otherwise return the stored deck_id. -/
def in_deck (deck : List Card) (db : DB) : Nat × DB :=
  match db.decks.find? (fun r => decide (r.cards = sortedCards deck)) with
  | some r => (r.deck_id, db)
  | none =>
      (db.decks.length + 1,
        { db with decks := db.decks ++ [⟨db.decks.length + 1, sortedCards deck⟩] })

/-- str(strptime(battleTime[:-5], YYYYMMDDTHHMMSS)): drop the last five
characters (.000Z) and reformat to YYYY-MM-DD HH:MM:SS. -/
def battleTimeKey (s : String) : String :=
  let t := s.dropRight 5
  t.take 4 ++ "-" ++ (t.drop 4).take 2 ++ "-" ++ (t.drop 6).take 2 ++ " "
    ++ (t.drop 9).take 2 ++ ":" ++ (t.drop 11).take 2 ++ ":" ++ (t.drop 13).take 2

/-- The WHERE clause of the duplicate SELECT in in_battle:
battle_time=? AND tag_1=? AND tag_2=?. -/
def battleKeyHit (t tg tg2 : String) (r : BattleRow) : Bool :=
  decide (r.battle_time = t ∧ r.tag_1 = tg ∧ r.tag_2 = tg2)

/-- in_battle(battle, deck_1, deck_2): compute the reformatted battle time
and the two tags with their leading # stripped; return False when a row
with the same time and either tag order exists, otherwise INSERT the row
with the team side as side 1 and return lastrowid. -/
def in_battle (battle : Battle) (deck_1 deck_2 : Nat) (db : DB) : Option Nat × DB :=
  let battle_time := battleTimeKey battle.battleTime
  let tag_1 := battle.team.tag.drop 1
  let tag_2 := battle.opponent.tag.drop 1
  if db.battles.any (battleKeyHit battle_time tag_1 tag_2) then (none, db)
  else if db.battles.any (battleKeyHit battle_time tag_2 tag_1) then (none, db)
  else
    (some (db.battles.length + 1),
      { db with battles := db.battles ++
          [⟨db.battles.length + 1, battle_time,
            tag_1, battle.team.startingTrophies, battle.team.crowns, deck_1,
            tag_2, battle.opponent.startingTrophies, battle.opponent.crowns, deck_2⟩] })

/-- is_top_ladder(battle): gameMode id in {72000006, 72000201} and both
sides above 6600 starting trophies. -/
def is_top_ladder (battle : Battle) : Bool :=
  if (battle.gameModeId = 72000006 ∨ battle.gameModeId = 72000201)
      ∧ 6600 < battle.opponent.startingTrophies
      ∧ 6600 < battle.team.startingTrophies
  then true
  else false

/-- An HTTP response of the battlelog endpoint: the status code and the
decoded JSON body (a battle list on 200, a reason/message object otherwise). -/
structure ApiResponse where
  code : Nat
  battles : List Battle
  reason : String
  message : String
  deriving DecidableEq

/-- Outcome of api_request: either the battle list, or the fatal branch
that logs the reason and calls sys.exit(message). -/
inductive ApiResult where
  | ok (battles : List Battle)
  | fatal (loggedReason : String) (exitMessage : String)
  deriving DecidableEq

/-- api_request(player): return the decoded body on status 200; otherwise
log the reason field and exit the program with the message field. -/
def api_request (resp : ApiResponse) : ApiResult :=
  if resp.code = 200 then ApiResult.ok resp.battles
  else ApiResult.fatal resp.reason resp.message

/-- The body of the for loop of main: battles failing is_top_ladder are
skipped; otherwise register the opponent, resolve both decks and store the
battle. -/
def process_battle (db : DB) (battle : Battle) : DB :=
  if is_top_ladder battle then
    let db1 := in_player (battle.opponent.tag.drop 1) none db
    let r1 := in_deck battle.team.cards db1
    let r2 := in_deck battle.opponent.cards r1.2
    (in_battle battle r1.1 r2.1 r2.2).2
  else db

/-- main(player): api_request first; on the fatal branch sys.exit fires
inside api_request, before any battle of the batch is touched, so the
database is returned unchanged together with the exit message.  Otherwise
every battle is processed in order and finally the visit of player is
recorded at the current time. -/
def main (player : String) (resp : ApiResponse) (now : Nat) (db : DB) :
    Option String × DB :=
  match api_request resp with
  | ApiResult.fatal _ message => (some message, db)
  | ApiResult.ok battles =>
      (none, in_player player (some now) (List.foldl process_battle db battles))

/-! ### Helper lemmas -/

theorem map_eq_self_of_mem {α : Type} {f : α → α} {l : List α}
    (h : ∀ a ∈ l, f a = a) : l.map f = l := by
  induction l with
  | nil => rfl
  | cons a t ih =>
    rw [List.map_cons, h a (List.mem_cons_self a t),
      ih (fun b hb => h b (List.mem_cons_of_mem a hb))]

/-- Sorting the card ids of a deck depends only on the multiset of cards. -/
theorem sortedCards_eq_of_perm {deck deck2 : List Card} (h : List.Perm deck deck2) :
    sortedCards deck = sortedCards deck2 := by
  unfold sortedCards
  refine List.eq_of_perm_of_sorted ?_
    (List.sorted_insertionSort (fun a b => a ≤ b) (deck.map (fun c => c.id)))
    (List.sorted_insertionSort (fun a b => a ≤ b) (deck2.map (fun c => c.id)))
  exact ((List.perm_insertionSort _ _).trans (h.map _)).trans
    (List.perm_insertionSort _ _).symm

/-- Unfolding of in_deck when the sorted card list is absent from decks. -/
theorem in_deck_of_find_none {deck : List Card} {db : DB}
    (h : db.decks.find? (fun r => decide (r.cards = sortedCards deck)) = none) :
    in_deck deck db =
      (db.decks.length + 1,
        { db with decks := db.decks ++ [⟨db.decks.length + 1, sortedCards deck⟩] }) := by
  unfold in_deck
  rw [h]

/-- Unfolding of in_deck when the sorted card list is already stored. -/
theorem in_deck_of_find_some {deck : List Card} {db : DB} {r : DeckRow}
    (h : db.decks.find? (fun r => decide (r.cards = sortedCards deck)) = some r) :
    in_deck deck db = (r.deck_id, db) := by
  unfold in_deck
  rw [h]

/-! ### Claim theorems -/

/-- C4: deck dedup is order-independent: for any list of 8 card objects and
any permutation of it, calling in_deck on the original and then on the
permutation returns the same deck_id both times, and the second call
performs no insert, leaving the database unchanged. -/
theorem in_deck_order_independent (deck deck2 : List Card) (db : DB)
    (_hlen : deck.length = 8) (hperm : List.Perm deck deck2) :
    (in_deck deck2 (in_deck deck db).2).1 = (in_deck deck db).1 ∧
    (in_deck deck2 (in_deck deck db).2).2 = (in_deck deck db).2 := by
  have hsc : sortedCards deck2 = sortedCards deck :=
    (sortedCards_eq_of_perm hperm).symm
  cases hf : db.decks.find? (fun r => decide (r.cards = sortedCards deck)) with
  | some r =>
    rw [in_deck_of_find_some hf]
    have hf2 : db.decks.find? (fun r => decide (r.cards = sortedCards deck2)) = some r := by
      rw [hsc]; exact hf
    rw [in_deck_of_find_some hf2]
    exact ⟨rfl, rfl⟩
  | none =>
    rw [in_deck_of_find_none hf]
    have hf2 :
        (db.decks ++ [DeckRow.mk (db.decks.length + 1) (sortedCards deck)]).find?
          (fun r => decide (r.cards = sortedCards deck2)) =
        some (DeckRow.mk (db.decks.length + 1) (sortedCards deck)) := by
      rw [hsc, List.find?_append, hf]
      simp [List.find?]
    rw [in_deck_of_find_some hf2]
    exact ⟨rfl, rfl⟩

/-- A concrete deck for the C4 witness. -/
def deckA : List Card := [⟨3⟩, ⟨1⟩, ⟨4⟩, ⟨10⟩, ⟨5⟩, ⟨9⟩, ⟨2⟩, ⟨6⟩]

/-- deckA reversed, for the C4 witness. -/
def deckB : List Card := [⟨6⟩, ⟨2⟩, ⟨9⟩, ⟨5⟩, ⟨10⟩, ⟨4⟩, ⟨1⟩, ⟨3⟩]

/-- Witness for C4 at a concrete deck and its reversal. -/
theorem in_deck_order_independent_witness :
    (in_deck deckB (in_deck deckA emptyDB).2).1 = (in_deck deckA emptyDB).1 ∧
    (in_deck deckB (in_deck deckA emptyDB).2).2 = (in_deck deckA emptyDB).2 :=
  in_deck_order_independent deckA deckB emptyDB (by decide) (by decide)

/-! ### in_battle unfolding lemmas -/

/-- When either duplicate SELECT of in_battle hits, the call returns False
and leaves the database unchanged. -/
theorem in_battle_hit {battle : Battle} {db : DB} (deck_1 deck_2 : Nat)
    (h : db.battles.any (battleKeyHit (battleTimeKey battle.battleTime)
        (battle.team.tag.drop 1) (battle.opponent.tag.drop 1)) = true ∨
      db.battles.any (battleKeyHit (battleTimeKey battle.battleTime)
        (battle.opponent.tag.drop 1) (battle.team.tag.drop 1)) = true) :
    in_battle battle deck_1 deck_2 db = (none, db) := by
  cases hb1 : db.battles.any (battleKeyHit (battleTimeKey battle.battleTime)
      (battle.team.tag.drop 1) (battle.opponent.tag.drop 1)) with
  | true => simp [in_battle, hb1]
  | false =>
    cases h with
    | inl h1 => rw [hb1] at h1; exact absurd h1 (by simp)
    | inr h2 => simp [in_battle, hb1, h2]

/-- When neither duplicate SELECT hits, in_battle inserts the row with the
team side as side 1 and returns the fresh battle id. -/
theorem in_battle_insert_spec {battle : Battle} {db : DB} (deck_1 deck_2 : Nat)
    (h1 : db.battles.any (battleKeyHit (battleTimeKey battle.battleTime)
      (battle.team.tag.drop 1) (battle.opponent.tag.drop 1)) = false)
    (h2 : db.battles.any (battleKeyHit (battleTimeKey battle.battleTime)
      (battle.opponent.tag.drop 1) (battle.team.tag.drop 1)) = false) :
    in_battle battle deck_1 deck_2 db =
      (some (db.battles.length + 1),
        { db with battles := db.battles ++
            [⟨db.battles.length + 1, battleTimeKey battle.battleTime,
              battle.team.tag.drop 1, battle.team.startingTrophies,
              battle.team.crowns, deck_1,
              battle.opponent.tag.drop 1, battle.opponent.startingTrophies,
              battle.opponent.crowns, deck_2⟩] }) := by
  simp [in_battle, h1, h2]

/-- A successful insert means both duplicate SELECTs missed. -/
theorem in_battle_isSome_hits {battle : Battle} {deck_1 deck_2 : Nat} {db : DB}
    (h : (in_battle battle deck_1 deck_2 db).1.isSome) :
    db.battles.any (battleKeyHit (battleTimeKey battle.battleTime)
      (battle.team.tag.drop 1) (battle.opponent.tag.drop 1)) = false ∧
    db.battles.any (battleKeyHit (battleTimeKey battle.battleTime)
      (battle.opponent.tag.drop 1) (battle.team.tag.drop 1)) = false := by
  constructor
  · cases hb : db.battles.any (battleKeyHit (battleTimeKey battle.battleTime)
        (battle.team.tag.drop 1) (battle.opponent.tag.drop 1)) with
    | false => rfl
    | true => rw [in_battle_hit deck_1 deck_2 (Or.inl hb)] at h; exact absurd h (by simp)
  · cases hb : db.battles.any (battleKeyHit (battleTimeKey battle.battleTime)
        (battle.opponent.tag.drop 1) (battle.team.tag.drop 1)) with
    | false => rfl
    | true => rw [in_battle_hit deck_1 deck_2 (Or.inr hb)] at h; exact absurd h (by simp)

/-- The battle record observed from the other side: same battleTime, team
and opponent swapped. -/
def mirrorBattle (b : Battle) : Battle :=
  ⟨b.battleTime, b.gameModeId, b.opponent, b.team⟩

/-- A stored row belongs to the same match as a raw record: equal stored
battle time and the same unordered pair of stripped tags. -/
def sameMatch (b : Battle) (r : BattleRow) : Bool :=
  battleKeyHit (battleTimeKey b.battleTime) (b.team.tag.drop 1) (b.opponent.tag.drop 1) r ||
  battleKeyHit (battleTimeKey b.battleTime) (b.opponent.tag.drop 1) (b.team.tag.drop 1) r

/-- C10: the duplicate check of in_battle compares only the reformatted
battle time and the unordered pair of stripped tags: whenever some stored
row agrees on those, in_battle returns False and leaves the database
unchanged, whatever trophies, crowns or deck ids the record carries. -/
theorem in_battle_dedup_key_only (battle : Battle) (deck_1 deck_2 : Nat) (db : DB)
    (h : ∃ r ∈ db.battles, r.battle_time = battleTimeKey battle.battleTime ∧
      ((r.tag_1 = battle.team.tag.drop 1 ∧ r.tag_2 = battle.opponent.tag.drop 1) ∨
       (r.tag_1 = battle.opponent.tag.drop 1 ∧ r.tag_2 = battle.team.tag.drop 1))) :
    in_battle battle deck_1 deck_2 db = (none, db) := by
  obtain ⟨r, hr, ht, hc⟩ := h
  apply in_battle_hit
  cases hc with
  | inl hc =>
    exact Or.inl (List.any_eq_true.mpr
      ⟨r, hr, by simp [battleKeyHit, ht, hc.1, hc.2]⟩)
  | inr hc =>
    exact Or.inr (List.any_eq_true.mpr
      ⟨r, hr, by simp [battleKeyHit, ht, hc.1, hc.2]⟩)

/-- A stored battle row for the C10 witness. -/
def dedupRow : BattleRow := ⟨1, "2020-01-01 00:00:00", "AA", 7000, 3, 1, "BB", 6900, 1, 2⟩

/-- A database already holding dedupRow, for the C10 witness. -/
def dedupDB : DB := ⟨[], [], [dedupRow]⟩

/-- A record of the same match as dedupRow with different trophies, crowns
and decks, for the C10 witness. -/
def dedupBattle : Battle :=
  ⟨"20200101T000000.000Z", 72000006, ⟨"#AA", 6666, 0, []⟩, ⟨"#BB", 7100, 2, []⟩⟩

/-- Witness for C10: the record differs from the stored row in every
non-key column, yet in_battle refuses it and keeps the database as is. -/
theorem in_battle_dedup_key_only_witness :
    in_battle dedupBattle 5 6 dedupDB = (none, dedupDB) :=
  in_battle_dedup_key_only dedupBattle 5 6 dedupDB (by decide)

/-- C3: battle dedup is side-independent: once a record has been inserted,
ingesting the mirrored record (same battleTime, sides swapped, any decks)
returns False, changes nothing, and the battles table holds exactly one
row for that match. -/
theorem in_battle_mirror_dedup (b : Battle) (d1 d2 d3 d4 n : Nat) (db db2 : DB)
    (h : in_battle b d1 d2 db = (some n, db2)) :
    in_battle (mirrorBattle b) d3 d4 db2 = (none, db2) ∧
    (db2.battles.filter (sameMatch b)).length = 1 := by
  have hs : (in_battle b d1 d2 db).1.isSome := by rw [h]; rfl
  obtain ⟨h1, h2⟩ := in_battle_isSome_hits hs
  have heq := in_battle_insert_spec d1 d2 h1 h2
  have hx := heq.symm.trans h
  injection hx with hx1 hx2
  subst hx2
  constructor
  · apply in_battle_hit
    refine Or.inr (List.any_eq_true.mpr ⟨_, List.mem_append_right _ (List.mem_singleton_self _), ?_⟩)
    simp [battleKeyHit, mirrorBattle]
  · rw [List.filter_append]
    have hnil : db.battles.filter (sameMatch b) = [] := by
      rw [List.filter_eq_nil_iff]
      intro r hr hsm
      rw [sameMatch, Bool.or_eq_true] at hsm
      cases hsm with
      | inl hk => exact (List.any_eq_false.mp h1 r hr) hk
      | inr hk => exact (List.any_eq_false.mp h2 r hr) hk
    rw [hnil]
    simp [sameMatch, battleKeyHit]

/-- Witness for C3: insert a concrete battle into the empty database, then
ingest its mirror. -/
theorem in_battle_mirror_dedup_witness :
    in_battle (mirrorBattle dedupBattle) 7 8 (in_battle dedupBattle 1 2 emptyDB).2 =
      (none, (in_battle dedupBattle 1 2 emptyDB).2) ∧
    ((in_battle dedupBattle 1 2 emptyDB).2.battles.filter (sameMatch dedupBattle)).length = 1 :=
  in_battle_mirror_dedup dedupBattle 1 2 7 8 1 emptyDB
    (in_battle dedupBattle 1 2 emptyDB).2 (by decide)

/-- A battle whose team tag sorts lexicographically after the opponent
tag, for the C2 counterexample. -/
def battleZA : Battle :=
  ⟨"20200101T000000.000Z", 72000006, ⟨"#ZZ", 7000, 3, []⟩, ⟨"#AA", 6900, 1, []⟩⟩

/-- C2 counterexample: in_battle stores the team side as side 1 even when
its tag sorts lexicographically after the opponent tag, so the stored
tag_1 is not the smaller tag as the claim requires. -/
theorem in_battle_not_lex_canonical :
    (in_battle battleZA 1 2 emptyDB).2.battles.map (fun r => (r.tag_1, r.tag_2)) =
      [("ZZ", "AA")] ∧
    ("AA" : String).data < ("ZZ" : String).data := by
  constructor
  · decide
  · decide

/-- C2 amended: for every battle row inserted by in_battle, side 1 is the
observed (team) participant, side 2 the opponent, each with its own
trophies, crowns and deck id; the storage order is the observation order,
not the lexicographic one. -/
theorem in_battle_side1_is_team (b : Battle) (d1 d2 : Nat) (db : DB)
    (h : (in_battle b d1 d2 db).1.isSome) :
    (in_battle b d1 d2 db).2.battles = db.battles ++
      [⟨db.battles.length + 1, battleTimeKey b.battleTime,
        b.team.tag.drop 1, b.team.startingTrophies, b.team.crowns, d1,
        b.opponent.tag.drop 1, b.opponent.startingTrophies, b.opponent.crowns, d2⟩] := by
  obtain ⟨h1, h2⟩ := in_battle_isSome_hits h
  rw [in_battle_insert_spec d1 d2 h1 h2]

/-- Witness for the amended C2 at the concrete battle battleZA. -/
theorem in_battle_side1_is_team_witness :
    (in_battle battleZA 1 2 emptyDB).2.battles =
      [⟨1, "2020-01-01 00:00:00", "ZZ", 7000, 3, 1, "AA", 6900, 1, 2⟩] := by
  have hw := in_battle_side1_is_team battleZA 1 2 emptyDB (by decide)
  simpa using hw

/-- C1: evaluation at the failing input: a player whose visit was recorded
at time 1000 is returned again by out_player at that same instant with the
default threshold 3600, because the WHERE clause compares update_time
against datetime(now, +3600 seconds), i.e. the current time PLUS the
threshold, so no waiting period is ever enforced. -/
theorem out_player_ignores_visit_age :
    out_player 3600 1000 (in_player "AA" (some 1000) emptyDB) = some "AA" := by
  decide

/-- C6: whenever the players table is nonempty and every non-null stored
timestamp is at most the current time, out_player returns some tag; in
particular a player is eligible again immediately after its visit is
recorded. -/
theorem out_player_some_of_past (now : Nat) (db : DB) (hne : db.players ≠ [])
    (hpast : ∀ p ∈ db.players, ∀ t ∈ p.update_time, t ≤ now) :
    (out_player 3600 now db).isSome = true := by
  unfold out_player
  have hfil : db.players.filter (isEligible 3600 now) = db.players := by
    rw [List.filter_eq_self]
    intro p hp
    unfold isEligible
    cases hu : p.update_time with
    | none => rfl
    | some t =>
      have ht : t ≤ now := hpast p hp t (by rw [hu]; rfl)
      simp only [decide_eq_true_eq]
      omega
  rw [hfil]
  cases hs : List.insertionSort playerOrder db.players with
  | nil =>
    exfalso
    have hp := List.perm_insertionSort playerOrder db.players
    rw [hs] at hp
    exact hne hp.symm.eq_nil
  | cons a rest => rfl

/-- Witness for C6: a single player visited at time 50 is handed out again
at time 50. -/
theorem out_player_some_of_past_witness :
    (out_player 3600 50 (DB.mk [⟨some 50, "B"⟩] [] [])).isSome = true :=
  out_player_some_of_past 50 (DB.mk [⟨some 50, "B"⟩] [] []) (by decide) (by decide)

/-- Rows produced by the UPDATE of in_player carry the new timestamp
whenever their tag matches. -/
theorem mem_map_visit {tag : String} {t : Nat} {l : List PlayerRow} :
    ∀ p ∈ l.map (fun p => if p.tag = tag then PlayerRow.mk (some t) p.tag else p),
      p.tag = tag → p.update_time = some t := by
  intro p hp hpt
  obtain ⟨q, hq, hgq⟩ := List.mem_map.mp hp
  by_cases hqt : q.tag = tag
  · rw [if_pos hqt] at hgq
    rw [← hgq]
  · rw [if_neg hqt] at hgq
    rw [← hgq] at hpt
    exact absurd hpt hqt

/-- C7: upsert semantics of in_player: a new tag creates exactly one row,
appended with the given timestamp; with a supplied timestamp every stored
row of that tag ends up stamped with it, and such a row exists, whether it
was fresh or pre-existing; with no timestamp and an existing tag the call
changes nothing at all. -/
theorem in_player_upsert (tag : String) (ut : Option Nat) (t : Nat) (db : DB) :
    ((∀ p ∈ db.players, p.tag ≠ tag) →
      (in_player tag ut db).players = db.players ++ [⟨ut, tag⟩]) ∧
    ((∃ p ∈ (in_player tag (some t) db).players, p.tag = tag) ∧
      ∀ p ∈ (in_player tag (some t) db).players, p.tag = tag → p.update_time = some t) ∧
    ((∃ p ∈ db.players, p.tag = tag) → in_player tag none db = db) := by
  refine ⟨?_, ⟨?_, ?_⟩, ?_⟩
  · intro h
    have hany : db.players.any (fun p => decide (p.tag = tag)) = false := by
      rw [List.any_eq_false]
      intro p hp
      simpa using h p hp
    cases ut with
    | none => simp [in_player, hany]
    | some t0 =>
      have hmap : db.players.map
          (fun p => if p.tag = tag then PlayerRow.mk (some t0) p.tag else p) = db.players :=
        map_eq_self_of_mem (fun p hp => if_neg (h p hp))
      simp [in_player, hany, hmap]
  · have hins : ∃ q ∈ (if db.players.any (fun p => decide (p.tag = tag))
        then db.players else db.players ++ [PlayerRow.mk (some t) tag]), q.tag = tag := by
      cases hany : db.players.any (fun p => decide (p.tag = tag)) with
      | true =>
        obtain ⟨q, hq, hqt⟩ := List.any_eq_true.mp hany
        exact ⟨q, by simp [hq], by simpa using hqt⟩
      | false => exact ⟨⟨some t, tag⟩, by simp, rfl⟩
    obtain ⟨q, hq, hqt⟩ := hins
    refine ⟨if q.tag = tag then PlayerRow.mk (some t) q.tag else q,
      List.mem_map_of_mem _ hq, ?_⟩
    rw [if_pos hqt]
    exact hqt
  · exact mem_map_visit
  · intro h
    obtain ⟨p, hp, hpt⟩ := h
    have hany : db.players.any (fun q => decide (q.tag = tag)) = true :=
      List.any_eq_true.mpr ⟨p, hp, by simpa using hpt⟩
    cases db with
    | mk ps ds bs => simp [in_player, hany]

/-- Witness for C7: a fresh insert with a timestamp, and a timestamp-free
call on an existing tag that changes nothing. -/
theorem in_player_upsert_witness :
    (in_player "A" (some 5) emptyDB).players = [⟨some 5, "A"⟩] ∧
    in_player "C" none (DB.mk [⟨none, "C"⟩] [] []) = DB.mk [⟨none, "C"⟩] [] [] := by
  constructor
  · have hw := (in_player_upsert "A" (some 5) 5 emptyDB).1 (by decide)
    simpa using hw
  · exact (in_player_upsert "C" none 0 (DB.mk [⟨none, "C"⟩] [] [])).2.2 (by decide)

/-- C8: whenever out_player returns a tag, that tag belongs to a stored
player passing the WHERE clause whose update_time is minimal among all
players passing it, NULL sorting before every timestamp. -/
theorem out_player_returns_oldest (outdated now : Nat) (db : DB) (tg : String)
    (h : out_player outdated now db = some tg) :
    ∃ p ∈ db.players, p.tag = tg ∧ isEligible outdated now p = true ∧
      ∀ q ∈ db.players, isEligible outdated now q = true →
        nullsFirstLe p.update_time q.update_time := by
  unfold out_player at h
  cases hs : List.insertionSort playerOrder (db.players.filter (isEligible outdated now)) with
  | nil =>
    rw [hs] at h
    exact absurd h (by simp)
  | cons a rest =>
    rw [hs] at h
    have hat : a.tag = tg := by simpa using h
    have hperm := List.perm_insertionSort playerOrder
      (db.players.filter (isEligible outdated now))
    rw [hs] at hperm
    have hmem : a ∈ db.players.filter (isEligible outdated now) :=
      hperm.subset (List.mem_cons_self a rest)
    obtain ⟨haP, haE⟩ := List.mem_filter.mp hmem
    refine ⟨a, haP, hat, haE, ?_⟩
    intro q hq hqE
    have hqf : q ∈ db.players.filter (isEligible outdated now) :=
      List.mem_filter.mpr ⟨hq, hqE⟩
    have hsorted := List.sorted_insertionSort playerOrder
      (db.players.filter (isEligible outdated now))
    rw [hs] at hsorted
    have hqs : q ∈ a :: rest := hperm.symm.subset hqf
    cases List.mem_cons.mp hqs with
    | inl hqa => rw [hqa]; exact nullsFirstLe_refl a.update_time
    | inr hqr => exact List.rel_of_sorted_cons hsorted q hqr

/-- A small frontier for the C8 witness: one stale player, one never
visited, one fresher. -/
def frontierDB : DB := ⟨[⟨some 5, "A"⟩, ⟨none, "B"⟩, ⟨some 3, "C"⟩], [], []⟩

/-- Witness for C8: the never-visited player B is returned ahead of both
visited ones. -/
theorem out_player_returns_oldest_witness :
    ∃ p ∈ frontierDB.players, p.tag = "B" ∧ isEligible 3600 10 p = true ∧
      ∀ q ∈ frontierDB.players, isEligible 3600 10 q = true →
        nullsFirstLe p.update_time q.update_time :=
  out_player_returns_oldest 3600 10 frontierDB "B" (by decide)

/-- C5: is_top_ladder holds exactly when the game mode is on the fixed
allow-list and both sides exceed 6600 starting trophies; a battle failing
it is skipped entirely by the loop body of main: no player, deck or battle
write happens. -/
theorem is_top_ladder_scope (battle : Battle) (db : DB) :
    (is_top_ladder battle = true ↔
      ((battle.gameModeId = 72000006 ∨ battle.gameModeId = 72000201) ∧
        6600 < battle.team.startingTrophies ∧ 6600 < battle.opponent.startingTrophies)) ∧
    (is_top_ladder battle = false → process_battle db battle = db) := by
  constructor
  · constructor
    · intro hT
      unfold is_top_ladder at hT
      split at hT
      next hc => exact ⟨hc.1, hc.2.2, hc.2.1⟩
      next => exact absurd hT (by simp)
    · intro hQ
      unfold is_top_ladder
      rw [if_pos ⟨hQ.1, hQ.2.2, hQ.2.1⟩]
  · intro hF
    simp [process_battle, hF]

/-- A battle outside the allow-list, for the C5 witness. -/
def offLadderBattle : Battle :=
  ⟨"20200101T000000.000Z", 12345, ⟨"#AA", 7000, 3, []⟩, ⟨"#BB", 6900, 1, []⟩⟩

/-- Witness for C5: a battle with an off-list game mode is skipped and the
database is untouched. -/
theorem is_top_ladder_scope_witness :
    is_top_ladder offLadderBattle = false ∧
    process_battle emptyDB offLadderBattle = emptyDB :=
  ⟨by decide, (is_top_ladder_scope offLadderBattle emptyDB).2 (by decide)⟩

/-- C9: a non-200 response makes api_request take the fatal branch, which
logs the upstream reason and exits with the upstream message; main then
ends with that message and the database exactly as it was, before any
battle of the batch is processed. -/
theorem api_request_fatal (resp : ApiResponse) (player : String) (now : Nat) (db : DB)
    (h : resp.code ≠ 200) :
    api_request resp = ApiResult.fatal resp.reason resp.message ∧
    main player resp now db = (some resp.message, db) := by
  have hA : api_request resp = ApiResult.fatal resp.reason resp.message := by
    unfold api_request
    rw [if_neg h]
  refine ⟨hA, ?_⟩
  unfold main
  rw [hA]

/-- A concrete error response for the C9 witness. -/
def errorResponse : ApiResponse := ⟨404, [], "notFound", "player not found"⟩

/-- Witness for C9 at a 404 response. -/
theorem api_request_fatal_witness :
    api_request errorResponse = ApiResult.fatal "notFound" "player not found" ∧
    main "AA" errorResponse 7 emptyDB = (some "player not found", emptyDB) :=
  api_request_fatal errorResponse "AA" 7 emptyDB (by decide)

end CrDb
